import Mathlib

/-!
Verification of the image-caption request pipeline of the worker-blip
repository (src/src/handler.py, src/src/schemas.py) against its
natural-language specification.

The embedding models Python strings as lists of characters (`Str`), the
job input as a record of optional typed fields, external collaborators
(file download, mime sniffing, image decoding, the captioning model) as an
explicit `Env` of functions, and Python exceptions as `Except` results.
The handler functions `create_personalized_prompt`,
`post_process_caption_with_tags`, `process_single_image` and
`caption_image_legacy` are translated line by line from
src/src/handler.py; alongside the response, the embedding returns a
`Trace` recording the download and model-generate calls the handler made,
so that claims about "no model invocation" are statable.
-/

set_option maxRecDepth 4000

/-- Python strings, modelled as lists of characters (ASCII case mapping). -/
abbrev Str := List Char

/-- Python str.lower(), character by character. -/
def lowerStr (s : Str) : Str := s.map Char.toLower

/-- Python str.startswith: does the second string begin with the first. -/
def beginsWith : Str → Str → Bool
  | [], _ => true
  | _ :: _, [] => false
  | a :: as, b :: bs => a == b && beginsWith as bs

/-- Python str.find restricted to found-or-not: index of the leftmost
occurrence of needle in the haystack, if any. -/
def findSub (needle : Str) : Str → Option Nat
  | [] => if needle.isEmpty then some 0 else none
  | c :: cs =>
    if beginsWith needle (c :: cs) then some 0
    else (findSub needle cs).map (fun n => n + 1)

/-- Python substring membership (the `in` operator on strings). -/
def isSub (needle hay : Str) : Bool := (findSub needle hay).isSome

/-- Python str.replace(old, new, 1): replace the leftmost occurrence only. -/
def replaceFirst (s old new : Str) : Str :=
  match findSub old s with
  | some i => s.take i ++ new ++ s.drop (i + old.length)
  | none => s

/-- Python str(i) for a natural number (used for the image_{i+1} paths). -/
def natStr (n : Nat) : Str := Nat.toDigits 10 n

/-- Python exceptions raised inside the personalization helpers.
The exact str(e) text depends on the offending value; it is modelled by
fixed representative strings below — no claim depends on the text. -/
inductive PyErr where
  | attr   -- AttributeError: .get called on a non-dict tags entry
  | key    -- KeyError: tag has a matching role but no name key
deriving DecidableEq

/-- Rendering of a Python exception as the str(e) interpolated into error
messages by the handler. -/
def pyMsg : PyErr → Str
  | .attr => "AttributeError: object has no attribute get".data
  | .key => "KeyError: name".data

/-- A value appearing in the tags field of the job input (a Python value).
Only the name and role keys of a dict are ever read by the handler, so a
dict is modelled by those two optional entries (values taken to be
strings when present). -/
inductive TagV where
  | dict (name : Option Str) (role : Option Str)
  | list (xs : List TagV)
  | atom

mutual

def TagV.beq : TagV → TagV → Bool
  | .dict n r, .dict m s => n == m && r == s
  | .list xs, .list ys => TagV.beqList xs ys
  | .atom, .atom => true
  | _, _ => false

def TagV.beqList : List TagV → List TagV → Bool
  | [], [] => true
  | a :: as, b :: bs => TagV.beq a b && TagV.beqList as bs
  | _, _ => false

end

mutual

def TagV.eq_of_beq : (a b : TagV) → TagV.beq a b = true → a = b
  | .dict n r, .dict m s, h => by
    simp only [TagV.beq, Bool.and_eq_true, beq_iff_eq] at h
    rw [h.1, h.2]
  | .dict _ _, .list _, h => by simp [TagV.beq] at h
  | .dict _ _, .atom, h => by simp [TagV.beq] at h
  | .list _, .dict _ _, h => by simp [TagV.beq] at h
  | .list xs, .list ys, h => by
    rw [TagV.eqList_of_beq xs ys (by simpa [TagV.beq] using h)]
  | .list _, .atom, h => by simp [TagV.beq] at h
  | .atom, .dict _ _, h => by simp [TagV.beq] at h
  | .atom, .list _, h => by simp [TagV.beq] at h
  | .atom, .atom, _ => rfl

def TagV.eqList_of_beq : (as bs : List TagV) → TagV.beqList as bs = true → as = bs
  | [], [], _ => rfl
  | [], _ :: _, h => by simp [TagV.beqList] at h
  | _ :: _, [], h => by simp [TagV.beqList] at h
  | a :: as, b :: bs, h => by
    simp only [TagV.beqList, Bool.and_eq_true] at h
    rw [TagV.eq_of_beq a b h.1, TagV.eqList_of_beq as bs h.2]

end

mutual

def TagV.beq_refl : (a : TagV) → TagV.beq a a = true
  | .dict n r => by simp [TagV.beq]
  | .list xs => by simpa [TagV.beq] using TagV.beqList_refl xs
  | .atom => rfl

def TagV.beqList_refl : (as : List TagV) → TagV.beqList as as = true
  | [] => rfl
  | a :: as => by
    simp only [TagV.beqList, Bool.and_eq_true]
    exact ⟨TagV.beq_refl a, TagV.beqList_refl as⟩

end

instance : DecidableEq TagV := fun a b =>
  if h : TagV.beq a b = true then .isTrue (TagV.eq_of_beq a b h)
  else .isFalse (fun he => h (he ▸ TagV.beq_refl a))

instance {ε α : Type} [DecidableEq ε] [DecidableEq α] : DecidableEq (Except ε α) :=
  fun a b =>
    match a, b with
    | .ok x, .ok y =>
      if h : x = y then .isTrue (by rw [h]) else .isFalse (by simp [h])
    | .error x, .error y =>
      if h : x = y then .isTrue (by rw [h]) else .isFalse (by simp [h])
    | .ok _, .error _ => .isFalse (by simp)
    | .error _, .ok _ => .isFalse (by simp)

/-- Raw job input: the "input" mapping of a job. Fields absent from the
mapping are `none`; `extraKeys` lists any keys outside the schema. -/
structure JobInput where
  data_url : Option Str := none
  data_urls : Option (List Str) := none
  prompt : Option Str := none
  tags : Option TagV := none
  max_length : Option Int := none
  min_length : Option Int := none
  num_beams : Option Int := none
  extraKeys : List Str := []
deriving DecidableEq

/-- Python truthiness of the input dict: `if not job_input`. -/
def JobInput.isEmpty (i : JobInput) : Bool :=
  i.data_url.isNone && i.data_urls.isNone && i.prompt.isNone && i.tags.isNone &&
  i.max_length.isNone && i.min_length.isNone && i.num_beams.isNone && i.extraKeys.isEmpty

/- Defaults of INPUT_SCHEMA in src/src/handler.py lines 16-52 (the schema
the running handler validates against). -/

def default_prompt : Str := "a photo of".data
def default_max_length : Int := 80
def default_min_length : Int := 15
def default_num_beams : Int := 5

/- Defaults of the INPUT_SCHEMA in src/src/schemas.py (a second schema in
the repository, not imported by handler.py). -/

def schemas_default_max_length : Int := 40
def schemas_default_min_length : Int := 8
def schemas_default_num_beams : Int := 3

/-- The job input after schema validation and defaulting. -/
structure Validated where
  data_url : Str
  prompt : Str
  tags : List TagV
  max_length : Int
  min_length : Int
  num_beams : Int
deriving DecidableEq

/-- Modelled from the spec: the validator
runpod.serverless.utils.rp_validator.validate is an external collaborator,
not part of this repository. Per the spec (section 4.1), a missing
required key fails validation, unknown keys are ignored, optional keys
missing from the input receive the defaults of INPUT_SCHEMA
(src/src/handler.py lines 16-52), and an out-of-schema type (a tags value
that is not a list) fails validation. -/
def validate (inp : JobInput) : Except Str Validated :=
  match inp.data_url with
  | none => .error ("data_url is a required input".data)
  | some u =>
    match inp.tags with
    | some (TagV.dict _ _) => .error ("tags must be a list".data)
    | some TagV.atom => .error ("tags must be a list".data)
    | _ =>
      .ok { data_url := u,
            prompt := inp.prompt.getD default_prompt,
            tags := match inp.tags with
                    | some (TagV.list xs) => xs
                    | _ => [],
            max_length := inp.max_length.getD default_max_length,
            min_length := inp.min_length.getD default_min_length,
            num_beams := inp.num_beams.getD default_num_beams }

/- ## Personalization helpers (handler.py lines 92-179) -/

/-- The contribution of one tag to the people list of
create_personalized_prompt: "Name (role)", "Name", or nothing; a non-dict
entry raises (tag.get on a list or atom). -/
def tagDisplay (t : TagV) : Except PyErr (Option Str) :=
  match t with
  | .dict n r =>
    let nm := n.getD []
    if nm.isEmpty then .ok none
    else
      let rl := r.getD []
      if rl.isEmpty then .ok (some nm)
      else .ok (some (nm ++ " (".data ++ rl ++ ")".data))
  | _ => .error .attr

/-- The people list of create_personalized_prompt (handler.py 101-109). -/
def collectPeople : List TagV → Except PyErr (List Str)
  | [] => .ok []
  | t :: ts =>
    match tagDisplay t with
    | .error e => .error e
    | .ok d =>
      match collectPeople ts with
      | .error e => .error e
      | .ok rest =>
        match d with
        | some s => .ok (s :: rest)
        | none => .ok rest

/-- Python ", ".join. -/
def joinComma : List Str → Str
  | [] => []
  | [s] => s
  | s :: rest => s ++ ", ".data ++ joinComma rest

/-- create_personalized_prompt (handler.py lines 92-129): with tags, the
prompt becomes the first enhanced variant "detailed photo of {people}". -/
def create_personalized_prompt (base : Str) (tags : List TagV) : Except PyErr Str :=
  if tags.isEmpty then .ok base
  else
    match collectPeople tags with
    | .error e => .error e
    | .ok people =>
      if people.isEmpty then .ok base
      else .ok ("detailed photo of ".data ++ joinComma people)

/-- The names list of post_process_caption_with_tags (handler.py 140):
the truthy name values of the tag dicts; a non-dict entry raises. -/
def extractNames : List TagV → Except PyErr (List Str)
  | [] => .ok []
  | t :: ts =>
    match t with
    | .dict n _ =>
      match extractNames ts with
      | .error e => .error e
      | .ok ns =>
        match n with
        | some nm => if nm.isEmpty then .ok ns else .ok (nm :: ns)
        | none => .ok ns
    | _ => .error .attr

/-- next((tag[name-key] for tag in tags if tag.get(role-key) in roles), d)
from handler.py 154-157: the name of the first tag whose role is in the
given list, defaulting to d; a matching tag without a name key raises
KeyError (tags are all dicts by the time this runs). -/
def nextRole (tags : List TagV) (roles : List Str) (d : Str) : Except PyErr Str :=
  match tags with
  | [] => .ok d
  | .dict n r :: rest =>
    if (match r with | some rv => roles.contains rv | none => false) then
      match n with
      | some nm => .ok nm
      | none => .error .key
    else nextRole rest roles d
  | _ :: _ => .error .attr

def roleKeysMan : List Str := ["father".data, "dad".data, "papa".data, "man".data]
def roleKeysWoman : List Str := ["mother".data, "mom".data, "mama".data, "woman".data]
def roleKeysBoy : List Str := ["son".data, "boy".data, "child".data]
def roleKeysGirl : List Str := ["daughter".data, "girl".data, "child".data]

/-- The value of the they entry of the replacements dict
(handler.py 160): one name, "n0 and n1", or a comma list with " and ". -/
def theyValue (names : List Str) : Str :=
  if names.length == 1 then names.headD []
  else if names.length == 2 then names.headD [] ++ " and ".data ++ names.getD 1 []
  else joinComma names.dropLast ++ " and ".data ++ names.getLastD []

/-- The substitution block of post_process_caption_with_tags
(handler.py 151-169): builds the replacements dict (values computed
eagerly, in key order, so a failing role lookup raises even when its
generic term is absent from the caption), then replaces the first
generic term present in the lowered caption. The caller guarantees
names is non-empty (the Python code indexes names[0] here). -/
def applySubstitution (caption : Str) (tags : List TagV) (names : List Str) :
    Except PyErr Str :=
  let n0 := names.headD []
  match nextRole tags roleKeysMan n0 with
  | .error e => .error e
  | .ok vMan =>
    match nextRole tags roleKeysWoman n0 with
    | .error e => .error e
    | .ok vWoman =>
      match nextRole tags roleKeysBoy n0 with
      | .error e => .error e
      | .ok vBoy =>
        match nextRole tags roleKeysGirl n0 with
        | .error e => .error e
        | .ok vGirl =>
          let reps : List (Str × Str) :=
            [("a person".data, n0), ("a man".data, vMan), ("a woman".data, vWoman),
             ("a boy".data, vBoy), ("a girl".data, vGirl), ("a child".data, n0),
             ("someone".data, n0), ("they".data, theyValue names)]
          match reps.find? (fun gv => isSub gv.1 (lowerStr caption)) with
          | some gv =>
            match findSub gv.1 (lowerStr caption) with
            | some idx =>
              .ok (caption.take idx ++ gv.2 ++ caption.drop (idx + gv.1.length))
            | none => .ok caption
          | none => .ok caption

def affectionate : List Str :=
  ["little".data, "sweet".data, "cute".data, "lovely".data]

/-- The childrens-book touch-up of post_process_caption_with_tags
(handler.py 172-177): when no affectionate adjective is present in the
(possibly substituted) caption, prefix the first tag name found in it
(case-sensitively) with "little ", once. -/
def applyLittle (processed : Str) (names : List Str) : Str :=
  if !processed.isEmpty &&
     !(affectionate.any (fun p => isSub p (lowerStr processed))) then
    match names.find? (fun n => isSub n processed) with
    | some n => replaceFirst processed n ("little ".data ++ n)
    | none => processed
  else processed

/-- post_process_caption_with_tags (handler.py lines 131-179). -/
def post_process_caption_with_tags (caption : Str) (tags : List TagV) :
    Except PyErr Str :=
  if tags.isEmpty || caption.isEmpty then .ok caption
  else
    match extractNames tags with
    | .error e => .error e
    | .ok names =>
      if names.isEmpty then .ok caption
      else if names.any (fun n => isSub (lowerStr n) (lowerStr caption)) then
        .ok (applyLittle caption names)
      else
        match applySubstitution caption tags names with
        | .error e => .error e
        | .ok processed => .ok (applyLittle processed names)

/- ## The single-image handler (handler.py lines 196-348) -/

/-- Arguments of one model.generate invocation (handler.py 285-295);
the image is identified by the downloaded file path it was decoded from. -/
structure GenArgs where
  image : Str
  prompt : Str
  num_beams : Int
  max_length : Int
  min_length : Int
deriving DecidableEq

/-- External collaborators of the handler: the download utility
(rp_download.file), mimetypes.guess_type, PIL image opening plus the
vision preprocessor (merged: any exception there lands in the same
handler), and the generate call of the captioning model. Each fallible one returns
the exception text on failure. -/
structure Env where
  download : Str → Except Str Str
  guessMime : Str → Option Str
  openImage : Str → Except Str Unit
  generate : GenArgs → Except Str Str

/-- Calls the handler made to the external collaborators. -/
structure Trace where
  downloads : List Str := []
  genCalls : List GenArgs := []
deriving DecidableEq

/-- The single-image response of the handler: the error dict or the success
dict (caption, raw_caption, personalization_info, and the clamped
model_info values; timing fields are not modelled). -/
structure PersInfo where
  tags_used : List TagV
  enhanced_prompt : Str
  post_processed : Bool
deriving DecidableEq

inductive Resp where
  | error (msg : Str)
  | success (caption raw_caption : Str) (info : PersInfo)
      (max_length num_beams : Int)
deriving DecidableEq

def mimeWhitelist : List (Option Str) :=
  [some ("image/jpeg".data), some ("image/png".data), some ("image/jpg".data)]

/-- Python f-string rendering of the guessed mime (None prints as None). -/
def mimeToStr : Option Str → Str
  | some s => s
  | none => "None".data

/-- The clamped generate arguments (handler.py 282-295): max_length is
capped at 100 and num_beams at 8 before the model call. -/
def mkGenArgs (path pprompt : Str) (v : Validated) : GenArgs :=
  { image := path, prompt := pprompt,
    num_beams := min v.num_beams 8,
    max_length := min v.max_length 100,
    min_length := v.min_length }

/-- process_single_image (handler.py lines 196-348), with the calls to
external collaborators threaded through env and recorded in the trace. -/
def process_single_image (env : Env) (inp : JobInput) : Resp × Trace :=
  if inp.isEmpty then (.error ("No input provided".data), {})
  else
    match validate inp with
    | .error e => (.error ("Validation failed: ".data ++ e), {})
    | .ok p =>
      if p.data_url.isEmpty ||
         !(beginsWith ("data:image/".data) p.data_url ||
           beginsWith ("http".data) p.data_url) then
        (.error ("Invalid data_url format. Expected: data:image/...;base64,... or http(s)://...".data), {})
      else
        match env.download p.data_url with
        | .error e =>
          (.error ("Failed to download/decode image: ".data ++ e),
           { downloads := [p.data_url] })
        | .ok path =>
          let t0 : Trace := { downloads := [p.data_url] }
          if !(mimeWhitelist.contains (env.guessMime path)) then
            (.error ("Unsupported image format: ".data ++ mimeToStr (env.guessMime path)), t0)
          else
            match env.openImage path with
            | .error e => (.error ("Caption generation failed: ".data ++ e), t0)
            | .ok _ =>
              match create_personalized_prompt p.prompt p.tags with
              | .error e => (.error ("Caption generation failed: ".data ++ pyMsg e), t0)
              | .ok pprompt =>
                let args := mkGenArgs path pprompt p
                let t1 : Trace := { downloads := [p.data_url], genCalls := [args] }
                match env.generate args with
                | .error e => (.error ("Caption generation failed: ".data ++ e), t1)
                | .ok caption =>
                  match post_process_caption_with_tags caption p.tags with
                  | .error e => (.error ("Caption generation failed: ".data ++ pyMsg e), t1)
                  | .ok processed =>
                    (.success processed caption
                      ⟨p.tags, pprompt, !(processed == caption)⟩
                      (min p.max_length 100) (min p.num_beams 8), t1)

/- ## The legacy batch handler (handler.py lines 350-420) -/

/-- One entry of the captions list of the legacy response; error entries
carry the bracketed error text as their caption and no
personalization_info. -/
structure CaptionEntry where
  image_path : Str
  caption : Str
  info : Option PersInfo
deriving DecidableEq

inductive LegacyResp where
  | error (msg : Str)
  | captions (entries : List CaptionEntry)
deriving DecidableEq

/-- The per-image tags of the batch loop (handler.py 374). -/
def batchTagAt (bt : List TagV) (i : Nat) : TagV :=
  if i < bt.length then bt.getD i (TagV.list []) else TagV.list []

/-- The single-image job the legacy loop builds for image i
(handler.py 377-385): every key is set explicitly, with the legacy
defaults for those absent from the batch input. -/
def legacySingleJob (inp : JobInput) (bt : List TagV) (i : Nat) (u : Str) : JobInput :=
  { data_url := some u,
    data_urls := none,
    prompt := some (inp.prompt.getD ("detailed photo showing".data)),
    tags := some (batchTagAt bt i),
    max_length := some (inp.max_length.getD 80),
    min_length := some (inp.min_length.getD 15),
    num_beams := some (inp.num_beams.getD 5),
    extraKeys := [] }

/-- The caption entry the legacy loop appends for image i
(handler.py 388-400). -/
def legacyEntry (env : Env) (inp : JobInput) (bt : List TagV) (i : Nat) (u : Str) :
    CaptionEntry :=
  match process_single_image env (legacySingleJob inp bt i u) with
  | (.error e, _) =>
    ⟨"image_".data ++ natStr (i + 1), "[ERROR: ".data ++ e ++ "]".data, none⟩
  | (.success c _ info _ _, _) =>
    ⟨"image_".data ++ natStr (i + 1), c, some info⟩

/-- The legacy for-loop over data_urls, carrying the running index. -/
def legacyLoop (env : Env) (inp : JobInput) (bt : List TagV) :
    Nat → List Str → List CaptionEntry
  | _, [] => []
  | i, u :: rest => legacyEntry env inp bt i u :: legacyLoop env inp bt (i + 1) rest

def Trace.append (a b : Trace) : Trace :=
  { downloads := a.downloads ++ b.downloads, genCalls := a.genCalls ++ b.genCalls }

/-- The collaborator calls of the legacy loop, in loop order. -/
def legacyTrace (env : Env) (inp : JobInput) (bt : List TagV) :
    Nat → List Str → Trace
  | _, [] => {}
  | i, u :: rest =>
    Trace.append (process_single_image env (legacySingleJob inp bt i u)).2
      (legacyTrace env inp bt (i + 1) rest)

/-- The tags value the batch loop indexes into, as a list. -/
def batchTagsOf (inp : JobInput) : List TagV :=
  match inp.tags with
  | some (TagV.list xs) => xs
  | _ => []

/-- caption_image_legacy (handler.py lines 350-420). A non-list tags
value in batch mode makes the Python len()/indexing of batch_tags raise
for the inputs exercised here; that is modelled coarsely as the legacy
catch-all error of the legacy wrapper (no claim depends on this branch). -/
def caption_image_legacy (env : Env) (inp : JobInput) : LegacyResp × Trace :=
  match inp.data_urls with
  | some us =>
    if us.isEmpty then (.error ("Empty data_urls array".data), {})
    else
      match inp.tags.getD (TagV.list []) with
      | TagV.list xs =>
        (.captions (legacyLoop env inp xs 0 us), legacyTrace env inp xs 0 us)
      | _ => (.error ("Legacy handler error: tags indexing failed".data), {})
  | none =>
    match process_single_image env inp with
    | (.error e, t) => (.error e, t)
    | (.success c _ info _ _, t) =>
      (.captions [⟨"single_image".data, c, some info⟩], t)

/- ## Statement vocabulary for the personalization claims -/

/-- The fixed generic-term set of the replacements table
(handler.py 152-161), in dict insertion order. -/
def genericTerms : List Str :=
  ["a person".data, "a man".data, "a woman".data, "a boy".data,
   "a girl".data, "a child".data, "someone".data, "they".data]

/-- The substitution step conforms to the claim with replacement values
drawn from vals: the caption is unchanged, or exactly one occurrence of
one generic term (located case-insensitively) is replaced by one value
from vals. -/
def substConforms (caption res : Str) (vals : List Str) : Prop :=
  res = caption ∨
  ∃ i : Fin (caption.length + 1), ∃ g ∈ genericTerms, ∃ v ∈ vals,
    beginsWith g ((lowerStr caption).drop i.val) = true ∧
    res = caption.take i.val ++ v ++ caption.drop (i.val + g.length)

/-- The touch-up step conforms to the claim: the caption is unchanged, or
no affectionate adjective occurs in it and "little " is inserted at
exactly one position, immediately before an occurrence of one tag name. -/
def littleConforms (mid res : Str) (names : List Str) : Prop :=
  res = mid ∨
  ((∀ p ∈ affectionate, isSub p (lowerStr mid) = false) ∧
   ∃ i : Fin (mid.length + 1), ∃ n ∈ names,
     beginsWith n (mid.drop i.val) = true ∧
     res = mid.take i.val ++ "little ".data ++ mid.drop i.val)

/-- A tag dict whose name key is present carries a non-empty name (the
side condition of the amended C4: an empty name is excluded from the
names list but still returned by the role lookup). -/
def tagNameOk : TagV → Bool
  | TagV.dict (some nm) _ => !nm.isEmpty
  | _ => true

/- ## Concrete fixtures for witnesses and counterexamples -/

/-- An environment in which every collaborator succeeds and the model
echoes the prompt it was given. -/
def okEnv : Env :=
  { download := fun _ => .ok ("/tmp/img.jpg".data),
    guessMime := fun _ => some ("image/jpeg".data),
    openImage := fun _ => .ok (),
    generate := fun a => .ok a.prompt }

def urlJpeg : Str := "data:image/jpeg;base64,AA".data
def urlHttp : Str := "http://example.com/img.jpg".data
def pathJpg : Str := "/tmp/img.jpg".data

/-- The validated form of a job that supplies only data_url. -/
def vDefault (u : Str) : Validated :=
  { data_url := u, prompt := default_prompt, tags := [],
    max_length := default_max_length, min_length := default_min_length,
    num_beams := default_num_beams }

/-- okEnv with mime sniffing reporting a gif. -/
def envMimeGif : Env := { okEnv with guessMime := fun _ => some ("image/gif".data) }

/-- okEnv with a model that captions every image as a generic man. -/
def envGenMan : Env := { okEnv with generate := fun _ => .ok ("a man walks".data) }

/-- okEnv with the download collaborator failing on everything but
urlJpeg. -/
def envFailHttp : Env :=
  { okEnv with download := fun u => if u == urlJpeg then .ok pathJpg else .error ("boom".data) }

/-- Tags whose second entry has a matching role but no name key: the
role lookup of the substitution table raises KeyError on it. -/
def tagsKeyErr : List TagV :=
  [TagV.dict (some ("Zq".data)) none, TagV.dict none (some ("father".data))]

/-- A request with over-cap generation parameters. -/
def clampInput : JobInput :=
  { data_url := some urlJpeg, max_length := some 999, num_beams := some 20 }

def clampValidated : Validated :=
  { data_url := urlJpeg, prompt := default_prompt, tags := [],
    max_length := 999, min_length := 15, num_beams := 20 }

/-- The generate call okEnv receives for clampInput. -/
def clampArgs : GenArgs := mkGenArgs pathJpg default_prompt clampValidated

/- ## Helper lemmas -/

theorem beginsWith_eq_append : ∀ p l : Str, beginsWith p l = true → l = p ++ l.drop p.length
  | [], l, _ => by simp
  | _ :: _, [], h => by simp [beginsWith] at h
  | a :: as, b :: bs, h => by
    simp only [beginsWith, Bool.and_eq_true, beq_iff_eq] at h
    simp only [List.length_cons, List.drop_succ_cons, List.cons_append, h.1]
    exact congrArg (b :: ·) (beginsWith_eq_append as bs h.2)

theorem findSub_le : ∀ (nd hay : Str) (i : Nat), findSub nd hay = some i → i ≤ hay.length
  | nd, [], i, h => by
    unfold findSub at h
    split at h
    · simp only [Option.some.injEq] at h
      omega
    · exact absurd h (by simp)
  | nd, c :: cs, i, h => by
    unfold findSub at h
    split at h
    · simp only [Option.some.injEq] at h
      omega
    · simp only [Option.map_eq_some'] at h
      obtain ⟨j, hj, hij⟩ := h
      have := findSub_le nd cs j hj
      simp only [List.length_cons]
      omega

theorem findSub_begins : ∀ (nd hay : Str) (i : Nat),
    findSub nd hay = some i → beginsWith nd (hay.drop i) = true
  | nd, [], i, h => by
    unfold findSub at h
    split at h
    · simp only [Option.some.injEq] at h
      subst h
      simp_all [List.isEmpty_iff, beginsWith]
    · exact absurd h (by simp)
  | nd, c :: cs, i, h => by
    unfold findSub at h
    split at h
    · simp only [Option.some.injEq] at h
      subst h
      assumption
    · simp only [Option.map_eq_some'] at h
      obtain ⟨j, hj, hij⟩ := h
      subst hij
      simpa using findSub_begins nd cs j hj

theorem lowerStr_length (s : Str) : (lowerStr s).length = s.length :=
  List.length_map _ _

theorem headD_mem (l : List Str) (h : l.isEmpty = false) : l.headD [] ∈ l := by
  cases l with
  | nil => simp at h
  | cons a as => simp [List.headD]

theorem extractNames_mem : ∀ (tags : List TagV) (ns : List Str) (nm : Str) (r : Option Str),
    extractNames tags = .ok ns → TagV.dict (some nm) r ∈ tags → nm.isEmpty = false → nm ∈ ns
  | [], ns, nm, r, _, hmem, _ => by simp at hmem
  | t :: ts, ns, nm, r, h, hmem, hne => by
    cases t with
    | dict n rr =>
      unfold extractNames at h
      cases hrec : extractNames ts with
      | error e => rw [hrec] at h; exact absurd h (by simp)
      | ok ns' =>
        rw [hrec] at h
        rcases List.mem_cons.mp hmem with heq | hmem' <;>
          simp only [] at h
        · injection heq with hn hr
          rw [← hn] at h
          simp only [hne, Bool.false_eq_true, if_false, Except.ok.injEq] at h
          rw [← h]
          exact List.mem_cons_self _ _
        · have hin := extractNames_mem ts ns' nm r hrec hmem' hne
          cases n with
          | none =>
            simp only [Except.ok.injEq] at h
            rw [← h]; exact hin
          | some nm' =>
            by_cases hnm' : nm'.isEmpty = true <;>
              simp only [hnm', Bool.false_eq_true, if_true, if_false, Except.ok.injEq] at h <;>
              rw [← h]
            · exact hin
            · exact List.mem_cons_of_mem _ hin
    | list xs => exact absurd h (by simp [extractNames])
    | atom => exact absurd h (by simp [extractNames])

theorem nextRole_ok : ∀ (tags : List TagV) (roles : List Str) (d v : Str),
    nextRole tags roles d = .ok v → v = d ∨ ∃ r, TagV.dict (some v) r ∈ tags
  | [], roles, d, v, h => by
    simp only [nextRole, Except.ok.injEq] at h
    exact Or.inl h.symm
  | .dict n r :: rest, roles, d, v, h => by
    unfold nextRole at h
    split at h
    · cases n with
      | some nm =>
        simp only [Except.ok.injEq] at h
        subst h
        exact Or.inr ⟨r, List.mem_cons_self _ _⟩
      | none => exact absurd h (by simp)
    · rcases nextRole_ok rest roles d v h with h1 | ⟨rr, h2⟩
      · exact Or.inl h1
      · exact Or.inr ⟨rr, List.mem_cons_of_mem _ h2⟩
  | .list _ :: rest, roles, d, v, h => by simp [nextRole] at h
  | .atom :: rest, roles, d, v, h => by simp [nextRole] at h

theorem validate_ok_not_empty (inp : JobInput) (v : Validated)
    (h : validate inp = .ok v) : inp.isEmpty = false := by
  unfold validate at h
  cases hu : inp.data_url with
  | none => rw [hu] at h; exact absurd h (by simp)
  | some u => simp [JobInput.isEmpty, hu]

/-- C3: with an empty tags list, both personalization steps are the
identity: the prompt-construction variant returns the base prompt and
the post-processing step returns the caption unchanged. -/
theorem C3_empty_tags_identity (base caption : Str) :
    create_personalized_prompt base [] = Except.ok base ∧
    post_process_caption_with_tags caption [] = Except.ok caption := by
  constructor
  · simp [create_personalized_prompt]
  · simp [post_process_caption_with_tags]

/-- C7 (amended): unknown keys are ignored by validation, and known keys
absent from the input receive the defaults of the running
INPUT_SCHEMA: prompt "a photo of", max_length 80, min_length 15,
num_beams 5, tags []. (There is no batchSize key in the schema.) -/
theorem C7_amended_defaults :
    (∀ (inp : JobInput) (ks : List Str),
      validate { inp with extraKeys := ks } = validate inp) ∧
    (∀ (u : Str) (ks : List Str),
      validate { data_url := some u, extraKeys := ks } = Except.ok (vDefault u)) :=
  ⟨fun _ _ => rfl, fun _ _ => rfl⟩

/-- C7 counterexample: the defaults the schema actually assigns are
max_length 80, min_length 15, num_beams 5 — not the claimed
maxLength 75, minLength 5, numBeams 3; the unused schema in
src/src/schemas.py assigns 40 and 8, which also differ. -/
theorem C7_counterexample :
    validate { data_url := some urlJpeg } = Except.ok (vDefault urlJpeg) ∧
    ((vDefault urlJpeg).max_length ≠ 75 ∧ (vDefault urlJpeg).min_length ≠ 5 ∧
     (vDefault urlJpeg).num_beams ≠ 3) ∧
    (schemas_default_max_length ≠ 75 ∧ schemas_default_min_length ≠ 5) := by
  refine ⟨rfl, by decide, by decide⟩

/-- C2: a job input containing neither data_url nor data_urls fails
validation: the handler returns an error response and makes no model
invocation and no download. -/
theorem C2_missing_source_error (env : Env) (inp : JobInput)
    (h1 : inp.data_url = none) (h2 : inp.data_urls = none) :
    ∃ e, (process_single_image env inp).1 = Resp.error e ∧
      (process_single_image env inp).2.genCalls = [] ∧
      (process_single_image env inp).2.downloads = [] := by
  unfold process_single_image
  by_cases he : inp.isEmpty = true
  · rw [if_pos he]
    exact ⟨_, rfl, rfl, rfl⟩
  · have hv : validate inp = .error ("data_url is a required input".data) := by
      unfold validate; rw [h1]
    rw [if_neg he, hv]
    exact ⟨_, rfl, rfl, rfl⟩

theorem C2_missing_source_error_witness :
    ∃ e, (process_single_image okEnv { prompt := some ("hi".data) }).1 = Resp.error e ∧
      (process_single_image okEnv { prompt := some ("hi".data) }).2.genCalls = [] ∧
      (process_single_image okEnv { prompt := some ("hi".data) }).2.downloads = [] :=
  C2_missing_source_error okEnv { prompt := some ("hi".data) } rfl rfl

/-- C10: a validated input whose data_url starts with neither
"data:image/" nor "http" yields the invalid-format error response with
no download attempt and no model invocation. -/
theorem C10_invalid_url_early (env : Env) (inp : JobInput) (v : Validated)
    (hv : validate inp = .ok v)
    (h1 : beginsWith ("data:image/".data) v.data_url = false)
    (h2 : beginsWith ("http".data) v.data_url = false) :
    (process_single_image env inp).1 =
      Resp.error ("Invalid data_url format. Expected: data:image/...;base64,... or http(s)://...".data) ∧
    (process_single_image env inp).2.downloads = [] ∧
    (process_single_image env inp).2.genCalls = [] := by
  have he := validate_ok_not_empty inp v hv
  unfold process_single_image
  rw [he, hv]
  simp [h1, h2]

theorem C10_invalid_url_early_witness :
    (process_single_image okEnv { data_url := some ("ftp://x".data) }).1 =
      Resp.error ("Invalid data_url format. Expected: data:image/...;base64,... or http(s)://...".data) ∧
    (process_single_image okEnv { data_url := some ("ftp://x".data) }).2.downloads = [] ∧
    (process_single_image okEnv { data_url := some ("ftp://x".data) }).2.genCalls = [] :=
  C10_invalid_url_early okEnv { data_url := some ("ftp://x".data) }
    (vDefault ("ftp://x".data)) rfl (by decide) (by decide)

/-- C9: every generate call the handler makes carries the clamped
parameters: max_length is min(requested, 100) and num_beams is
min(requested, 8), computed from the validated request. -/
theorem C9_generate_clamped (env : Env) (inp : JobInput) (g : GenArgs)
    (hg : g ∈ (process_single_image env inp).2.genCalls) :
    ∃ v, validate inp = .ok v ∧
      g.max_length = min v.max_length 100 ∧
      g.num_beams = min v.num_beams 8 ∧
      g.min_length = v.min_length := by
  unfold process_single_image at hg
  by_cases he : inp.isEmpty = true
  · rw [if_pos he] at hg
    simp at hg
  · rw [if_neg he] at hg
    cases hv : validate inp with
    | error e => simp only [hv] at hg; simp at hg
    | ok p =>
      simp only [hv] at hg
      by_cases hc : (p.data_url.isEmpty ||
          !(beginsWith ("data:image/".data) p.data_url ||
            beginsWith ("http".data) p.data_url)) = true
      · rw [if_pos hc] at hg; simp at hg
      · rw [if_neg hc] at hg
        cases hd : env.download p.data_url with
        | error e => simp only [hd] at hg; simp at hg
        | ok path =>
          simp only [hd] at hg
          by_cases hm : (!(mimeWhitelist.contains (env.guessMime path))) = true
          · rw [if_pos hm] at hg; simp at hg
          · rw [if_neg hm] at hg
            cases ho : env.openImage path with
            | error e => simp only [ho] at hg; simp at hg
            | ok un =>
              simp only [ho] at hg
              cases hcp : create_personalized_prompt p.prompt p.tags with
              | error e => simp only [hcp] at hg; simp at hg
              | ok pprompt =>
                simp only [hcp] at hg
                have hleaf : g = mkGenArgs path pprompt p := by
                  cases hgen : env.generate (mkGenArgs path pprompt p) with
                  | error e => simp only [hgen] at hg; simpa using hg
                  | ok cap =>
                    simp only [hgen] at hg
                    cases hpp : post_process_caption_with_tags cap p.tags with
                    | error e => simp only [hpp] at hg; simpa using hg
                    | ok processed => simp only [hpp] at hg; simpa using hg
                subst hleaf
                exact ⟨p, rfl, rfl, rfl, rfl⟩

theorem C9_generate_clamped_witness :
    ∃ v, validate clampInput = Except.ok v ∧
      clampArgs.max_length = min v.max_length 100 ∧
      clampArgs.num_beams = min v.num_beams 8 ∧
      clampArgs.min_length = v.min_length :=
  C9_generate_clamped okEnv clampInput clampArgs (by decide)

/-- C6 (amended): a materialized source whose sniffed content type is
outside the whitelist of raster image types is not silently skipped: the
handler surfaces it as an error response naming the format, and no model
invocation happens for it. -/
theorem C6_amended (env : Env) (inp : JobInput) (v : Validated) (path : Str)
    (hv : validate inp = .ok v)
    (hurl : (beginsWith ("data:image/".data) v.data_url ||
             beginsWith ("http".data) v.data_url) = true)
    (hdl : env.download v.data_url = .ok path)
    (hmw : mimeWhitelist.contains (env.guessMime path) = false) :
    (process_single_image env inp).1 =
      Resp.error ("Unsupported image format: ".data ++ mimeToStr (env.guessMime path)) ∧
    (process_single_image env inp).2.genCalls = [] := by
  have he := validate_ok_not_empty inp v hv
  have hdu : v.data_url.isEmpty = false := by
    cases hdu2 : v.data_url with
    | nil => rw [hdu2] at hurl; exact absurd hurl (by decide)
    | cons c cs => rfl
  constructor <;>
  · unfold process_single_image
    simp only [he, Bool.false_eq_true, if_false, hv, hdu, hurl, Bool.not_true,
      Bool.or_false, hdl, hmw, Bool.not_false, if_true]

theorem C6_amended_witness :
    (process_single_image envMimeGif { data_url := some urlJpeg }).1 =
      Resp.error ("Unsupported image format: ".data ++
        mimeToStr (envMimeGif.guessMime pathJpg)) ∧
    (process_single_image envMimeGif { data_url := some urlJpeg }).2.genCalls = [] :=
  C6_amended envMimeGif { data_url := some urlJpeg } (vDefault urlJpeg) pathJpg
    rfl (by decide) rfl (by decide)

/-- C6 counterexample: a gif source is not silently skipped. In single
mode the job becomes an error response naming the format; in batch mode
the source still produces a caption entry (carrying the error text), so
the number of caption entries is the number of sources, not the number of
images that passed the mime filter (here 1 entry vs 0 passing). -/
theorem C6_counterexample :
    (process_single_image envMimeGif { data_url := some urlJpeg }).1 =
      Resp.error ("Unsupported image format: image/gif".data) ∧
    (caption_image_legacy envMimeGif { data_urls := some [urlJpeg] }).1 =
      LegacyResp.captions
        [⟨"image_1".data, "[ERROR: Unsupported image format: image/gif]".data, none⟩] := by
  exact ⟨rfl, rfl⟩

/-- C5 (amended): an internal error in the personalization
post-processing step is not swallowed: it propagates to the surrounding
caption-generation exception handler, which turns the whole request into
an error response — the handler does not degrade to a success response
with the unmodified generated caption. -/
theorem C5_postprocess_error_surfaces (env : Env) (inp : JobInput) (v : Validated)
    (path pprompt cap : Str) (pe : PyErr)
    (hv : validate inp = .ok v)
    (hurl : (beginsWith ("data:image/".data) v.data_url ||
             beginsWith ("http".data) v.data_url) = true)
    (hdl : env.download v.data_url = .ok path)
    (hmw : mimeWhitelist.contains (env.guessMime path) = true)
    (hopen : env.openImage path = .ok ())
    (hcpp : create_personalized_prompt v.prompt v.tags = .ok pprompt)
    (hgen : env.generate (mkGenArgs path pprompt v) = .ok cap)
    (hpp : post_process_caption_with_tags cap v.tags = .error pe) :
    (process_single_image env inp).1 =
      Resp.error ("Caption generation failed: ".data ++ pyMsg pe) := by
  have he := validate_ok_not_empty inp v hv
  have hdu : v.data_url.isEmpty = false := by
    cases hdu2 : v.data_url with
    | nil => rw [hdu2] at hurl; exact absurd hurl (by decide)
    | cons c cs => rfl
  unfold process_single_image
  simp only [he, Bool.false_eq_true, if_false, hv, hdu, hurl, Bool.not_true,
    Bool.or_false, hdl, hmw, Bool.not_true, if_false, hopen, hcpp, hgen, hpp]

theorem C5_postprocess_error_surfaces_witness :
    (process_single_image envGenMan
      { data_url := some urlJpeg, tags := some (TagV.list tagsKeyErr) }).1 =
      Resp.error ("Caption generation failed: ".data ++ pyMsg PyErr.key) :=
  C5_postprocess_error_surfaces envGenMan
    { data_url := some urlJpeg, tags := some (TagV.list tagsKeyErr) }
    { data_url := urlJpeg, prompt := default_prompt, tags := tagsKeyErr,
      max_length := 80, min_length := 15, num_beams := 5 }
    pathJpg ("detailed photo of Zq".data) ("a man walks".data) PyErr.key
    rfl (by decide) rfl (by decide) rfl rfl rfl rfl

/-- C5 counterexample: with tags [{name: Zq}, {role: father}] the model
successfully generates "a man walks" (one generate call is recorded), but
the post-processing role lookup raises KeyError, and the request fails
with an error response instead of succeeding with the unmodified
caption. -/
theorem C5_counterexample :
    post_process_caption_with_tags ("a man walks".data) tagsKeyErr =
      Except.error PyErr.key ∧
    (process_single_image envGenMan
      { data_url := some urlJpeg, tags := some (TagV.list tagsKeyErr) }).1 =
      Resp.error ("Caption generation failed: ".data ++ pyMsg PyErr.key) ∧
    (process_single_image envGenMan
      { data_url := some urlJpeg, tags := some (TagV.list tagsKeyErr) }).2.genCalls ≠ [] := by
  refine ⟨rfl, rfl, by decide⟩

theorem legacyLoop_length (env : Env) (inp : JobInput) (bt : List TagV) :
    ∀ (i : Nat) (us : List Str), (legacyLoop env inp bt i us).length = us.length
  | _, [] => rfl
  | i, u :: rest => by
    simp only [legacyLoop, List.length_cons]
    exact congrArg (· + 1) (legacyLoop_length env inp bt (i + 1) rest)

theorem legacyLoop_get (env : Env) (inp : JobInput) (bt : List TagV) :
    ∀ (us : List Str) (i k : Nat) (h : k < us.length)
      (h2 : k < (legacyLoop env inp bt i us).length),
      (legacyLoop env inp bt i us).get ⟨k, h2⟩ =
        legacyEntry env inp bt (i + k) (us.get ⟨k, h⟩)
  | [], _, k, h, _ => absurd h (by simp)
  | u :: rest, i, 0, h, h2 => rfl
  | u :: rest, i, k + 1, h, h2 => by
    have h3 : k < rest.length := by simpa using h
    have h4 : k < (legacyLoop env inp bt (i + 1) rest).length := by
      rw [legacyLoop_length]; exact h3
    have := legacyLoop_get env inp bt rest (i + 1) k h3 h4
    simp only [legacyLoop, List.get_cons_succ] at *
    rw [this]
    congr 1
    omega

/-- C1: for a job supplying data_urls, the legacy batch handler yields
exactly one caption entry per source; the entry for index k is computed
from source k alone (so a failure on one source cannot change any
sibling entry), and a source whose individual processing fails gets the
bracketed error text as its caption. -/
theorem C1_batch_isolation (env : Env) (inp : JobInput) (us : List Str)
    (hus : inp.data_urls = some us) (hne : us.isEmpty = false)
    (ht : inp.tags = none ∨ ∃ xs, inp.tags = some (TagV.list xs)) :
    ∃ cs, (caption_image_legacy env inp).1 = LegacyResp.captions cs ∧
      cs.length = us.length ∧
      (∀ (k : Nat) (h : k < us.length) (h2 : k < cs.length),
        cs.get ⟨k, h2⟩ = legacyEntry env inp (batchTagsOf inp) k (us.get ⟨k, h⟩)) ∧
      (∀ (k : Nat) (h : k < us.length) (h2 : k < cs.length) (e : Str),
        (process_single_image env
          (legacySingleJob inp (batchTagsOf inp) k (us.get ⟨k, h⟩))).1 = Resp.error e →
        (cs.get ⟨k, h2⟩).caption = "[ERROR: ".data ++ e ++ "]".data) := by
  have hbt : inp.tags.getD (TagV.list []) = TagV.list (batchTagsOf inp) := by
    rcases ht with h | ⟨xs, h⟩ <;> simp [batchTagsOf, h]
  refine ⟨legacyLoop env inp (batchTagsOf inp) 0 us, ?_, ?_, ?_, ?_⟩
  · unfold caption_image_legacy
    simp only [hus, hne, Bool.false_eq_true, if_false, hbt]
  · exact legacyLoop_length env inp _ 0 us
  · intro k h h2
    rw [legacyLoop_get env inp _ us 0 k h h2, Nat.zero_add]
  · intro k h h2 e hp
    rw [legacyLoop_get env inp _ us 0 k h h2, Nat.zero_add]
    unfold legacyEntry
    cases hps : process_single_image env
        (legacySingleJob inp (batchTagsOf inp) k (us.get ⟨k, h⟩)) with
    | mk r t =>
      rw [hps] at hp
      simp only at hp
      rw [hp]

theorem C1_batch_isolation_witness :
    ∃ cs, (caption_image_legacy envFailHttp { data_urls := some [urlHttp, urlJpeg] }).1 =
        LegacyResp.captions cs ∧
      cs.length = [urlHttp, urlJpeg].length ∧
      (∀ (k : Nat) (h : k < [urlHttp, urlJpeg].length) (h2 : k < cs.length),
        cs.get ⟨k, h2⟩ = legacyEntry envFailHttp { data_urls := some [urlHttp, urlJpeg] }
          (batchTagsOf { data_urls := some [urlHttp, urlJpeg] }) k
          ([urlHttp, urlJpeg].get ⟨k, h⟩)) ∧
      (∀ (k : Nat) (h : k < [urlHttp, urlJpeg].length) (h2 : k < cs.length) (e : Str),
        (process_single_image envFailHttp
          (legacySingleJob { data_urls := some [urlHttp, urlJpeg] }
            (batchTagsOf { data_urls := some [urlHttp, urlJpeg] }) k
            ([urlHttp, urlJpeg].get ⟨k, h⟩))).1 = Resp.error e →
        (cs.get ⟨k, h2⟩).caption = "[ERROR: ".data ++ e ++ "]".data) :=
  C1_batch_isolation envFailHttp { data_urls := some [urlHttp, urlJpeg] }
    [urlHttp, urlJpeg] rfl rfl (Or.inl rfl)

theorem psi_congr (env : Env) (i1 i2 : JobInput)
    (he : i1.isEmpty = i2.isEmpty) (hv : validate i1 = validate i2) :
    process_single_image env i1 = process_single_image env i2 := by
  unfold process_single_image
  rw [he, hv]

/-- C8 (amended): a job carrying only data_url and a job carrying
data_urls = [data_url] agree on the caption produced, provided the
generation parameters are supplied explicitly (the two paths fall back to
different defaults otherwise) and no tags are given; the resulting
entries still differ in their image_path ("single_image" vs "image_1"),
and a failing source is reported as a job-level error dict in single mode
but as an error caption entry in batch mode. -/
theorem C8_amended (env : Env) (u p : Str) (ml mnl nb : Int) :
    (∃ e, (caption_image_legacy env
        { data_url := some u, prompt := some p, max_length := some ml,
          min_length := some mnl, num_beams := some nb }).1 = LegacyResp.error e ∧
      (caption_image_legacy env
        { data_urls := some [u], prompt := some p, max_length := some ml,
          min_length := some mnl, num_beams := some nb }).1 =
        LegacyResp.captions [⟨"image_1".data, "[ERROR: ".data ++ e ++ "]".data, none⟩]) ∨
    (∃ c info, (caption_image_legacy env
        { data_url := some u, prompt := some p, max_length := some ml,
          min_length := some mnl, num_beams := some nb }).1 =
        LegacyResp.captions [⟨"single_image".data, c, some info⟩] ∧
      (caption_image_legacy env
        { data_urls := some [u], prompt := some p, max_length := some ml,
          min_length := some mnl, num_beams := some nb }).1 =
        LegacyResp.captions [⟨"image_1".data, c, some info⟩]) := by
  have key : process_single_image env
      { data_url := some u, prompt := some p, max_length := some ml,
        min_length := some mnl, num_beams := some nb } =
      process_single_image env
        (legacySingleJob
          { data_urls := some [u], prompt := some p, max_length := some ml,
            min_length := some mnl, num_beams := some nb } [] 0 u) :=
    psi_congr env _ _ rfl rfl
  cases hps : process_single_image env
      (legacySingleJob
        { data_urls := some [u], prompt := some p, max_length := some ml,
          min_length := some mnl, num_beams := some nb } [] 0 u) with
  | mk r t =>
    cases r with
    | error e =>
      left
      refine ⟨e, ?_, ?_⟩
      · unfold caption_image_legacy
        simp only [key, hps]
      · unfold caption_image_legacy
        simp only [List.isEmpty_cons, Bool.false_eq_true, if_false, Option.getD_none,
          legacyLoop, legacyEntry, hps]
        rfl
    | success c raw info mlr nbr =>
      right
      refine ⟨c, info, ?_, ?_⟩
      · unfold caption_image_legacy
        simp only [key, hps]
      · unfold caption_image_legacy
        simp only [List.isEmpty_cons, Bool.false_eq_true, if_false, Option.getD_none,
          legacyLoop, legacyEntry, hps]
        rfl

/-- C8 counterexample: for a job carrying only data_url, the single path
and the one-element batch path are not equivalent. With the same
environment, the single path captions with the schema default prompt
"a photo of" while the batch path rebuilds the job with the legacy
default "detailed photo showing", and the produced entries also differ
in image_path. -/
theorem C8_counterexample :
    (caption_image_legacy okEnv { data_url := some urlJpeg }).1 =
      LegacyResp.captions
        [⟨"single_image".data, "a photo of".data,
          some ⟨[], "a photo of".data, false⟩⟩] ∧
    (caption_image_legacy okEnv { data_urls := some [urlJpeg] }).1 =
      LegacyResp.captions
        [⟨"image_1".data, "detailed photo showing".data,
          some ⟨[], "detailed photo showing".data, false⟩⟩] ∧
    ("a photo of".data ≠ "detailed photo showing".data) ∧
    ("single_image".data ≠ "image_1".data) := by
  refine ⟨rfl, rfl, by decide, by decide⟩

theorem applyLittle_conforms (mid : Str) (names : List Str) :
    littleConforms mid (applyLittle mid names) names := by
  unfold applyLittle
  by_cases hc : (!mid.isEmpty &&
      !(affectionate.any (fun p => isSub p (lowerStr mid)))) = true
  · rw [if_pos hc]
    cases hf : names.find? (fun n => isSub n mid) with
    | none => exact Or.inl rfl
    | some n =>
      have hn : n ∈ names := List.mem_of_find?_eq_some hf
      have hsub : isSub n mid = true := by simpa using List.find?_some hf
      unfold isSub at hsub
      obtain ⟨i, hi⟩ := Option.isSome_iff_exists.mp hsub
      have hile := findSub_le n mid i hi
      have hbegins := findSub_begins n mid i hi
      simp only [Bool.and_eq_true, Bool.not_eq_eq_eq_not, Bool.not_true] at hc
      right
      constructor
      · intro p hp
        have h2 := hc.2
        simp only [Bool.not_eq_true'] at h2
        rw [List.any_eq_false] at h2
        have h3 := h2 p hp
        simpa using h3
      · have hdi := beginsWith_eq_append n (mid.drop i) hbegins
        rw [List.drop_drop] at hdi
        have hres : replaceFirst mid n ("little ".data ++ n) =
            mid.take i ++ "little ".data ++ mid.drop i := by
          simp only [replaceFirst, hi]
          rw [hdi]
          simp [List.append_assoc]
        exact ⟨⟨i, by omega⟩, n, hn, hbegins, hres⟩
  · rw [if_neg hc]
    exact Or.inl rfl

theorem applySubstitution_conforms (caption : Str) (tags : List TagV)
    (names : List Str) (mid : Str)
    (hgood : tags.all tagNameOk = true)
    (hnames : ∀ (nm : Str) (r : Option Str),
      TagV.dict (some nm) r ∈ tags → nm.isEmpty = false → nm ∈ names)
    (hne : names.isEmpty = false)
    (hs : applySubstitution caption tags names = .ok mid) :
    substConforms caption mid (names ++ [theyValue names]) := by
  have vmem : ∀ (roles : List Str) (v : Str),
      nextRole tags roles (names.headD []) = .ok v → v ∈ names := by
    intro roles v hv
    rcases nextRole_ok tags roles (names.headD []) v hv with h1 | ⟨r, h2⟩
    · rw [h1]; exact headD_mem names hne
    · have hok := List.all_eq_true.mp hgood _ h2
      have hvne : v.isEmpty = false := by
        simpa [tagNameOk] using hok
      exact hnames v r h2 hvne
  unfold applySubstitution at hs
  cases hman : nextRole tags roleKeysMan (names.headD []) with
  | error e => simp only [hman] at hs; exact Except.noConfusion hs
  | ok vMan =>
    simp only [hman] at hs
    cases hwoman : nextRole tags roleKeysWoman (names.headD []) with
    | error e => simp only [hwoman] at hs; exact Except.noConfusion hs
    | ok vWoman =>
      simp only [hwoman] at hs
      cases hboy : nextRole tags roleKeysBoy (names.headD []) with
      | error e => simp only [hboy] at hs; exact Except.noConfusion hs
      | ok vBoy =>
        simp only [hboy] at hs
        cases hgirl : nextRole tags roleKeysGirl (names.headD []) with
        | error e => simp only [hgirl] at hs; exact Except.noConfusion hs
        | ok vGirl =>
          simp only [hgirl] at hs
          cases hf : List.find? (fun gv => isSub gv.1 (lowerStr caption))
              [(("a person".data : Str), names.headD ([] : Str)),
               ("a man".data, vMan), ("a woman".data, vWoman),
               ("a boy".data, vBoy), ("a girl".data, vGirl),
               ("a child".data, names.headD []),
               ("someone".data, names.headD []),
               ("they".data, theyValue names)] with
          | none =>
            simp only [hf, Except.ok.injEq] at hs
            exact Or.inl hs.symm
          | some gv =>
            simp only [hf] at hs
            have hmem := List.mem_of_find?_eq_some hf
            have hgv : gv.1 ∈ genericTerms ∧ gv.2 ∈ names ++ [theyValue names] := by
              simp only [List.mem_cons, List.not_mem_nil, or_false] at hmem
              have hd : names.headD [] ∈ names := headD_mem names hne
              rcases hmem with rfl | rfl | rfl | rfl | rfl | rfl | rfl | rfl
              · exact ⟨by simp [genericTerms], List.mem_append_left _ hd⟩
              · exact ⟨by simp [genericTerms], List.mem_append_left _ (vmem _ _ hman)⟩
              · exact ⟨by simp [genericTerms], List.mem_append_left _ (vmem _ _ hwoman)⟩
              · exact ⟨by simp [genericTerms], List.mem_append_left _ (vmem _ _ hboy)⟩
              · exact ⟨by simp [genericTerms], List.mem_append_left _ (vmem _ _ hgirl)⟩
              · exact ⟨by simp [genericTerms], List.mem_append_left _ hd⟩
              · exact ⟨by simp [genericTerms], List.mem_append_left _ hd⟩
              · exact ⟨by simp [genericTerms], List.mem_append_right _ (by simp)⟩
            cases hidx : findSub gv.1 (lowerStr caption) with
            | none =>
              simp only [hidx, Except.ok.injEq] at hs
              exact Or.inl hs.symm
            | some idx =>
              simp only [hidx, Except.ok.injEq] at hs
              have hile := findSub_le gv.1 (lowerStr caption) idx hidx
              rw [lowerStr_length] at hile
              have hbegins := findSub_begins gv.1 (lowerStr caption) idx hidx
              exact Or.inr ⟨⟨idx, by omega⟩, gv.1, hgv.1, gv.2, hgv.2, hbegins, hs.symm⟩

/-- C4 (amended): for a caption and non-empty tags, substitution is
attempted only when no tag name occurs case-insensitively in the caption;
at most one generic term is replaced, its replacement drawn from the tag
names extended by the conjunction text the code builds for "they" when
several tags are named (the original claim allowed only a single tag
name there); and "little " is inserted before at most one tag name, only
when no affectionate adjective is present. Side condition: tag dicts
carrying a name key carry a non-empty name. -/
theorem C4_amended (caption : Str) (tags : List TagV) (names : List Str) (res : Str)
    (hgood : tags.all tagNameOk = true)
    (hn : extractNames tags = .ok names)
    (h : post_process_caption_with_tags caption tags = .ok res) :
    ∃ mid : Str,
      (names.any (fun n => isSub (lowerStr n) (lowerStr caption)) = true →
        mid = caption) ∧
      substConforms caption mid (names ++ [theyValue names]) ∧
      littleConforms mid res names := by
  unfold post_process_caption_with_tags at h
  by_cases h0 : (tags.isEmpty || caption.isEmpty) = true
  · rw [if_pos h0] at h
    simp only [Except.ok.injEq] at h
    exact ⟨caption, fun _ => rfl, Or.inl rfl, Or.inl h.symm⟩
  · rw [if_neg h0] at h
    simp only [hn] at h
    by_cases h1 : names.isEmpty = true
    · rw [if_pos h1] at h
      simp only [Except.ok.injEq] at h
      exact ⟨caption, fun _ => rfl, Or.inl rfl, Or.inl h.symm⟩
    · rw [if_neg h1] at h
      have h1f : names.isEmpty = false := by
        revert h1; cases names.isEmpty <;> simp
      by_cases h2 : names.any (fun n => isSub (lowerStr n) (lowerStr caption)) = true
      · rw [if_pos h2] at h
        simp only [Except.ok.injEq] at h
        refine ⟨caption, fun _ => rfl, Or.inl rfl, ?_⟩
        rw [← h]
        exact applyLittle_conforms caption names
      · rw [if_neg h2] at h
        cases hsub : applySubstitution caption tags names with
        | error e => simp only [hsub] at h; exact Except.noConfusion h
        | ok mid =>
          simp only [hsub, Except.ok.injEq] at h
          refine ⟨mid, fun hc => absurd hc h2, ?_, ?_⟩
          · exact applySubstitution_conforms caption tags names mid hgood
              (fun nm r hm hne2 => extractNames_mem tags names nm r hn hm hne2)
              h1f hsub
          · rw [← h]
            exact applyLittle_conforms mid names

theorem C4_amended_witness :
    ∃ mid : Str,
      ((["Bob".data].any
          (fun n => isSub (lowerStr n) (lowerStr ("a man here".data)))) = true →
        mid = "a man here".data) ∧
      substConforms ("a man here".data) mid
        (["Bob".data] ++ [theyValue ["Bob".data]]) ∧
      littleConforms mid ("little Bob here".data) ["Bob".data] :=
  C4_amended ("a man here".data)
    [TagV.dict (some ("Bob".data)) (some ("father".data))]
    ["Bob".data] ("little Bob here".data) (by decide) rfl rfl

/-- C4 counterexample: with tags named A and B and the caption
"they smile", the substitution step replaces "they" with the conjunction
"A and B", which is not one of the tag names; so the claim that the
generic term is replaced with a role-matched tag name (falling back to
the first tag name) fails at this input. -/
theorem C4_counterexample :
    applySubstitution ("they smile".data)
      [TagV.dict (some ("A".data)) none, TagV.dict (some ("B".data)) none]
      ["A".data, "B".data] = Except.ok ("A and B smile".data) ∧
    post_process_caption_with_tags ("they smile".data)
      [TagV.dict (some ("A".data)) none, TagV.dict (some ("B".data)) none] =
      Except.ok ("little A and B smile".data) ∧
    ¬ substConforms ("they smile".data) ("A and B smile".data)
        ["A".data, "B".data] := by
  refine ⟨rfl, rfl, ?_⟩
  unfold substConforms
  decide
